/-
Verification of the doctai documentation-testing pipeline.

This file gives a shallow embedding of the core logic of the repository:

* `src/doctai/orchestrator.py` — fenced-block extraction, classification
  (`_extract_scripts_from_response`, `_is_runner_script`, `_is_cleanup_script`)
  and result aggregation (`test_documentation`);
* `src/doc_tester/executor.py` — script filename generation
  (`_generate_script_filename`), result shaping of `execute_script`, and the
  sequencing of `execute_multiple_scripts`.

Python strings are modelled as Lean `String` (ASCII-faithful: `str.lower`,
`str.strip`, `\w` and friends are modelled on their ASCII behaviour, the only
range exercised by the program's string constants).  Effects (the regex engine
producing the match list, subprocess execution, randomness) enter as explicit
parameters, so every definition is a computable function of its inputs.
-/

import Mathlib

namespace Doctai

/-! ### Python string primitives -/

/-- Python `str.lower()` (ASCII case folding, via `Char.toLower`). -/
def pyLower (s : String) : String := ⟨s.data.map Char.toLower⟩

/-- Python `str.strip()`: remove leading and trailing whitespace. -/
def pyStrip (s : String) : String :=
  ⟨((s.data.dropWhile Char.isWhitespace).reverse.dropWhile Char.isWhitespace).reverse⟩

/-- Python slicing `s[:n]` on a string: the first `n` characters. -/
def pyTake (n : Nat) (s : String) : String := ⟨s.data.take n⟩

/-- Python slicing `s[-n:]`-style truncation used by the executor:
keep only the last `n` characters when longer than `n`. -/
def pyTakeRight (n : Nat) (s : String) : String :=
  if s.data.length > n then ⟨s.data.drop (s.data.length - n)⟩ else s

/-- Python `s.split('\n')` on the character list: split at every newline,
keeping empty segments. -/
def splitNlAux : List Char → List Char → List (List Char)
  | [], cur => [cur.reverse]
  | c :: rest, cur =>
    if c = '\n' then cur.reverse :: splitNlAux rest [] else splitNlAux rest (c :: cur)

/-- Python `s.split('\n')`. -/
def pySplitNl (s : String) : List String :=
  (splitNlAux s.data []).map fun l => ⟨l⟩

/-- Python substring containment `pat in s`: `pat` occurs contiguously in `s`. -/
def strIn (pat s : String) : Bool :=
  (List.range (s.data.length + 1)).any fun i => pat.data.isPrefixOf (s.data.drop i)

/-- Python `str.startswith`. -/
def pyStartsWith (pre s : String) : Bool := pre.data.isPrefixOf s.data

/-- Decimal digit character for `d < 10` (as in `str(int)` / f-strings). -/
def digitChar (d : Nat) : Char := Char.ofNat (48 + d)

/-- Fuel-driven decimal rendering of a natural number (most significant digit
first); fuel-based so that the kernel can evaluate it. -/
def natReprCore : Nat → Nat → List Char → List Char
  | 0, _, acc => acc
  | fuel + 1, n, acc =>
    if n < 10 then digitChar n :: acc
    else natReprCore fuel (n / 10) (digitChar (n % 10) :: acc)

/-- Decimal rendering of a natural number, as Python `str(n)` / `f"{n}"`. -/
def natRepr (n : Nat) : String := ⟨natReprCore (n + 1) n []⟩

/-! ### Response parser (`src/doctai/orchestrator.py`)

`_extract_scripts_from_response` matches `` ```(\w+)\n(.*?)``` `` over the model
response; the regex engine is not embedded, so the parser below consumes the
resulting match list `matches : List (String × String)` of
(language token, block body) pairs, exactly what `re.findall` hands the loop. -/

/-- The fixed denylist of non-executable formats
(`_extract_scripts_from_response`, the `continue` branch). -/
def nonExecutable : List String :=
  ["json", "yaml", "yml", "toml", "xml", "html", "css", "markdown", "md", "txt"]

/-- The fixed cleanup indicator phrases of `_is_cleanup_script`. -/
def cleanup_indicators : List String :=
  ["cleanup", "clean up", "remove", "rm -rf", "delete", "tear down", "teardown"]

/-- The `actual_lines` computed by `DocumentationTester._is_runner_script`:
split the stripped content on newlines, strip each line, and drop the lines
that are empty or start with `#`. -/
def actual_lines (content : String) : List String :=
  ((pySplitNl (pyStrip content)).map pyStrip).filter fun l => l ≠ "" && !pyStartsWith "#" l

/-- `DocumentationTester._is_runner_script`: the content, once blank and
`#`-initial lines are dropped (each line stripped first), has at most two
lines, and some remaining line is a `chmod`-plus-`.sh` call or a `./…​.sh`
invocation. -/
def is_runner_script (content : String) : Bool :=
  if (actual_lines content).length ≤ 2 then
    (actual_lines content).any fun line =>
      (strIn "chmod" line && strIn ".sh" line) || (pyStartsWith "./" line && strIn ".sh" line)
  else false

/-- `DocumentationTester._is_cleanup_script`: some cleanup indicator occurs in
the first 200 characters of the lowered content, and either an `echo` occurs
(with the indicator somewhere in the content) or a comment introduces the
indicator. -/
def is_cleanup_script (content : String) : Bool :=
  let content_lower := pyLower content
  cleanup_indicators.any fun indicator =>
    strIn indicator (pyTake 200 content_lower) &&
      ((strIn "echo" content_lower && strIn indicator content_lower) ||
        (strIn ("# " ++ indicator) content_lower || strIn ("#" ++ indicator) content_lower))

/-- The language-token normalisation of `_extract_scripts_from_response`:
lower-case, then `sh|shell|bash → bash`, `py|python3 → python`. -/
def normType (language : String) : String :=
  let t := pyLower language
  if t = "sh" ∨ t = "shell" ∨ t = "bash" then "bash"
  else if t = "py" ∨ t = "python3" then "python"
  else t

/-- The generated script name `f"script_{i}_{script_type}"`. -/
def script_name (i : Nat) (t : String) : String :=
  "script_" ++ natRepr i ++ "_" ++ t

/-- A ScriptSet entry value: `{'content': …, 'type': …}`. -/
structure ScriptData where
  content : String
  type : String
deriving DecidableEq, Repr

/-- The classification a candidate receives in
`_extract_scripts_from_response` (first match wins, in code order). -/
inductive ScriptClass where
  | rejectedNonExecutable
  | rejectedRunner
  | cleanup
  | normal
deriving DecidableEq, Repr

/-- Classification of one matched block, read off the branch structure of
`_extract_scripts_from_response`. -/
def classify (language content : String) : ScriptClass :=
  if pyLower language ∈ nonExecutable then .rejectedNonExecutable
  else if is_runner_script content then .rejectedRunner
  else if is_cleanup_script content then .cleanup
  else .normal

/-- The ScriptSet entry built for block ordinal `i` of language `language`
with body `content` (`script_name` key, stripped content, normalised type). -/
def mkEntry (i : Nat) (language content : String) : String × ScriptData :=
  (script_name i (normType language), ⟨pyStrip content, normType language⟩)

/-- The loop body of `_extract_scripts_from_response`, expressed recursively:
`extractGo i ms` returns the pair (normal scripts, cleanup scripts) produced
from the matches `ms` when the first of them has ordinal `i`.  The Python loop
appends to the two insertion-ordered dicts `scripts` / `cleanup_scripts`;
consing the current block onto the recursive result yields the same two
sequences. -/
def extractGo : Nat → List (String × String) → List (String × ScriptData) × List (String × ScriptData)
  | _, [] => ([], [])
  | i, (language, content) :: rest =>
    if pyLower language ∈ nonExecutable then extractGo (i + 1) rest
    else if is_runner_script content then extractGo (i + 1) rest
    else if is_cleanup_script content then
      ((extractGo (i + 1) rest).1, mkEntry i language content :: (extractGo (i + 1) rest).2)
    else (mkEntry i language content :: (extractGo (i + 1) rest).1, (extractGo (i + 1) rest).2)

/-- `DocumentationTester._extract_scripts_from_response`: classify each
matched block (ordinals starting at 1) and return the normal scripts in
appearance order followed by the cleanup scripts in appearance order
(`scripts.update(cleanup_scripts)` on insertion-ordered dicts). -/
def extract_scripts_from_response (ms : List (String × String)) :
    List (String × ScriptData) :=
  let (scripts, cleanup_scripts) := extractGo 1 ms
  scripts ++ cleanup_scripts

/-! ### Script executor (`src/doc_tester/executor.py`) -/

/-- The extension chosen by `_generate_script_filename` and `execute_script`
for a script type. -/
def script_extension (script_type : String) : String :=
  if pyLower script_type = "bash" ∨ pyLower script_type = "sh" then ".sh"
  else if pyLower script_type = "python" then ".py"
  else "." ++ script_type

/-- Python `\w` on ASCII: letters, digits and underscore. -/
def isWordChar (c : Char) : Bool := c.isAlphanum || c = '_'

/-- Python `str.strip('_')`: remove leading and trailing underscores. -/
def pyStripUnderscore (s : String) : String :=
  ⟨((s.data.dropWhile (· = '_')).reverse.dropWhile (· = '_')).reverse⟩

/-- `ScriptExecutor._generate_script_filename`.  The random six-character
suffix produced by `random.choices` is passed in as `random_suffix`;
`source_context` is `self.source_context`.  With a source context the code
replaces every character outside `[\w\-.]` by `_` (`re.sub`), strips leading
and trailing underscores, keeps at most the last 50 characters, and assembles
`_gen-<sanitized>-<suffix><ext>`; without one it uses the script index. -/
def generate_script_filename (script_type : String) (script_index : Nat)
    (source_context : Option String) (random_suffix : String) : String :=
  let extension := script_extension script_type
  match source_context with
  | some src =>
    let sanitized : String := ⟨src.data.map fun c =>
      if isWordChar c || c = '-' || c = '.' then c else '_'⟩
    let sanitized := pyStripUnderscore sanitized
    let sanitized := pyTakeRight 50 sanitized
    "_gen-" ++ sanitized ++ "-" ++ random_suffix ++ extension
  | none => "_gen-script" ++ natRepr script_index ++ "-" ++ random_suffix ++ extension

/-- Outcome of the underlying `subprocess.run` call in
`ScriptExecutor.execute_script`: normal completion with an exit code and
captured output, `subprocess.TimeoutExpired`, or any other spawn exception. -/
inductive ProcOutcome where
  | completed (returncode : Int) (stdout stderr : String)
  | timedOut
  | spawnError (msg : String)
deriving DecidableEq, Repr

/-- The `(success, stdout, stderr)` triple returned by
`ScriptExecutor.execute_script`, as a function of the process outcome and the
timeout parameter (default 600): success iff exit status zero; a timeout
yields empty stdout and the timeout message; a spawn failure yields empty
stdout and the failure message. -/
def execute_script_result (outcome : ProcOutcome) (timeout : Nat) :
    Bool × String × String :=
  match outcome with
  | .completed rc out err => (rc == 0, out, err)
  | .timedOut =>
    (false, "", "Script execution timed out after " ++ natRepr timeout ++ " seconds")
  | .spawnError msg => (false, "", "Failed to execute script: " ++ msg)

/-- The loop of `ScriptExecutor.execute_multiple_scripts`: `execF idx script`
stands for `self.execute_script(content, type, script_index=idx)`.  Results are
recorded in order; when `stop_on_failure` is set the loop breaks right after
the first failed script. -/
def emsGo (execF : Nat → ScriptData → Bool × String × String) (stop_on_failure : Bool) :
    Nat → List (String × ScriptData) → List (String × (Bool × String × String))
  | _, [] => []
  | idx, (script_name, script_info) :: rest =>
    let r := execF idx script_info
    (script_name, r) ::
      (if !r.1 && stop_on_failure then [] else emsGo execF stop_on_failure (idx + 1) rest)

/-- `ScriptExecutor.execute_multiple_scripts` (indices from `enumerate`). -/
def execute_multiple_scripts (execF : Nat → ScriptData → Bool × String × String)
    (scripts : List (String × ScriptData)) (stop_on_failure : Bool) :
    List (String × (Bool × String × String)) :=
  emsGo execF stop_on_failure 0 scripts

/-! ### Test orchestrator (`DocumentationTester.test_documentation`) -/

/-- One entry of `results["details"]`. -/
structure Detail where
  script : String
  success : Bool
  stdout : String
  stderr : String
deriving DecidableEq, Repr

/-- The `results` dictionary returned by `test_documentation`. -/
structure TestResult where
  success : Bool
  documentation_sources : List String
  documentation_count : Nat
  scripts_generated : Nat
  scripts_executed : Nat
  scripts_passed : Nat
  scripts_failed : Nat
  scripts : List (String × ScriptData)
  details : List Detail
  error : Option String
deriving DecidableEq, Repr

/-- The loop over `execution_results.items()` in `test_documentation`: bump
the pass/fail counter and append a detail entry with stdout/stderr truncated
to 1000 characters. -/
def recordOutcome (r : TestResult) (x : String × (Bool × String × String)) : TestResult :=
  let r' := if x.2.1 then { r with scripts_passed := r.scripts_passed + 1 }
            else { r with scripts_failed := r.scripts_failed + 1 }
  { r' with details :=
      r'.details ++ [⟨x.1, x.2.1, pyTake 1000 x.2.2.1, pyTake 1000 x.2.2.2⟩] }

/-- The tail of `test_documentation` once `execute_multiple_scripts` has
returned: record `scripts_executed`, fold the outcome loop, then derive
overall success as `scripts_executed > 0 and scripts_failed == 0`. -/
def aggregate (base : TestResult) (l : List (String × (Bool × String × String))) :
    TestResult :=
  let r := l.foldl recordOutcome { base with scripts_executed := l.length }
  { r with success := r.scripts_executed > 0 && r.scripts_failed == 0 }

/-- `DocumentationTester.test_documentation`, with its three effectful stages
as explicit inputs: `fetchR` is the outcome of `self.fetcher.fetch_multiple`
(an identifier→content mapping or an exception message), `genR` the outcome of
`self._generate_test_scripts` (the extracted ScriptSet or an exception
message), and `execR` the outcome of the executor stage for the generated
scripts (the `execute_multiple_scripts` result or an exception message).
Each stage failure stores a single top-level error and returns early. -/
def test_documentation (sources : List String)
    (fetchR : Except String (List (String × String)))
    (genR : Except String (List (String × ScriptData)))
    (execR : Except String (List (String × (Bool × String × String)))) : TestResult :=
  let results : TestResult :=
    { success := false, documentation_sources := sources, documentation_count := 0,
      scripts_generated := 0, scripts_executed := 0, scripts_passed := 0,
      scripts_failed := 0, scripts := [], details := [], error := none }
  match fetchR with
  | .error e => { results with error := some ("Failed to fetch documentation: " ++ e) }
  | .ok docs =>
    let results := { results with documentation_count := docs.length }
    match genR with
    | .error e =>
      { results with error := some ("Failed to generate test scripts: " ++ e) }
    | .ok scripts =>
      let results := { results with scripts_generated := scripts.length,
                                    scripts := scripts }
      if scripts.isEmpty then
        { results with error := some "No test scripts were generated" }
      else
        match execR with
        | .error e => { results with error := some ("Failed to execute scripts: " ++ e) }
        | .ok execution_results => aggregate results execution_results

/-! ### Derived views and spec-side definitions

The definitions below restate parts of the specification in its own words, to
be compared against the embedded code above. -/

/-- The ScriptSet entry built for an enumerated block. -/
def scriptEntry (x : Nat × String × String) : String × ScriptData :=
  mkEntry x.1 x.2.1 x.2.2

/-- Whether an enumerated block receives classification `k`. -/
def isClass (k : ScriptClass) (x : Nat × String × String) : Bool :=
  decide (classify x.2.1 x.2.2 = k)

/-- The runner condition as the claim states it: after removing blank lines
and `#`-initial lines, at most two lines remain, and at least one of them
either contains both `chmod` and `.sh`, or starts with `./` and contains
`.sh`. -/
def runner_condition (content : String) : Prop :=
  (actual_lines content).length ≤ 2 ∧
    ∃ line ∈ actual_lines content,
      (strIn "chmod" line = true ∧ strIn ".sh" line = true) ∨
      (pyStartsWith "./" line = true ∧ strIn ".sh" line = true)

instance (content : String) : Decidable (runner_condition content) := by
  unfold runner_condition; infer_instance

/-- The cleanup condition as the claim states it: some cleanup indicator
occurs in the first 200 characters (case-insensitive), co-occurring with an
`echo` output statement in the content or with a comment introducing that
indicator. -/
def cleanup_condition (content : String) : Prop :=
  ∃ indicator ∈ cleanup_indicators,
    strIn indicator (pyTake 200 (pyLower content)) = true ∧
      (strIn "echo" (pyLower content) = true ∨
        strIn ("# " ++ indicator) (pyLower content) = true ∨
        strIn ("#" ++ indicator) (pyLower content) = true)

instance (content : String) : Decidable (cleanup_condition content) := by
  unfold cleanup_condition; infer_instance

/-- Sanitization as the claim words it: characters outside word
characters, hyphen, and dot are stripped (removed), and the result is
truncated to its last 50 characters. -/
def claimed_sanitize (s : String) : String :=
  pyTakeRight 50 ⟨s.data.filter fun c => isWordChar c || c = '-' || c = '.'⟩

/-- Sanitization as the amended claim words it: each character outside word
characters, hyphen, and dot is replaced by an underscore, leading and
trailing underscores are removed, and the result is truncated to its last 50
characters. -/
def amended_sanitize (s : String) : String :=
  pyTakeRight 50 (pyStripUnderscore
    ⟨s.data.map fun c => if isWordChar c || c = '-' || c = '.' then c else '_'⟩)

/-- Decimal value of a digit string (used to invert `natRepr`). -/
def evalDigits (l : List Char) : Nat :=
  l.foldl (fun a c => 10 * a + (c.toNat - 48)) 0

/-! ### Properties of the decimal rendering -/

theorem digitChar_isDigit {d : Nat} (h : d < 10) : (digitChar d).isDigit = true := by
  interval_cases d <;> decide

theorem digitChar_toNat {d : Nat} (h : d < 10) : (digitChar d).toNat = 48 + d := by
  interval_cases d <;> decide

theorem natReprCore_digits :
    ∀ (fuel n : Nat) (acc : List Char), (∀ c ∈ acc, c.isDigit = true) →
      ∀ c ∈ natReprCore fuel n acc, c.isDigit = true := by
  intro fuel
  induction fuel with
  | zero => intro n acc hacc c hc; exact hacc c hc
  | succ fuel ih =>
    intro n acc hacc c hc
    unfold natReprCore at hc
    by_cases h : n < 10
    · simp only [if_pos h, List.mem_cons] at hc
      rcases hc with rfl | hc
      · exact digitChar_isDigit h
      · exact hacc c hc
    · simp only [if_neg h] at hc
      refine ih (n / 10) _ ?_ c hc
      intro c' hc'
      rcases List.mem_cons.mp hc' with rfl | hc'
      · exact digitChar_isDigit (Nat.mod_lt _ (by norm_num))
      · exact hacc c' hc'

theorem natReprCore_append :
    ∀ (fuel n : Nat) (acc : List Char), n < fuel →
      natReprCore fuel n acc = natReprCore fuel n [] ++ acc := by
  intro fuel
  induction fuel with
  | zero => intro n acc h; omega
  | succ fuel ih =>
    intro n acc h
    unfold natReprCore
    by_cases h10 : n < 10
    · simp [h10]
    · have hdiv : n / 10 < fuel := by
        have := Nat.div_lt_self (by omega : 0 < n) (by norm_num : 1 < 10)
        omega
      simp only [if_neg h10]
      rw [ih (n / 10) (digitChar (n % 10) :: acc) hdiv,
        ih (n / 10) [digitChar (n % 10)] hdiv, List.append_assoc, List.singleton_append]

theorem natReprCore_fuel :
    ∀ (f₁ f₂ n : Nat) (acc : List Char), n < f₁ → n < f₂ →
      natReprCore f₁ n acc = natReprCore f₂ n acc := by
  intro f₁
  induction f₁ with
  | zero => intro f₂ n acc h₁ h₂; omega
  | succ f₁ ih =>
    intro f₂ n acc h₁ h₂
    obtain ⟨f₂', rfl⟩ : ∃ f₂', f₂ = f₂' + 1 := ⟨f₂ - 1, by omega⟩
    unfold natReprCore
    by_cases h10 : n < 10
    · simp [h10]
    · have hd : n / 10 < n := Nat.div_lt_self (by omega) (by norm_num)
      simp only [if_neg h10]
      exact ih f₂' (n / 10) _ (by omega) (by omega)

theorem evalDigits_append_digit (l : List Char) (c : Char) :
    evalDigits (l ++ [c]) = 10 * evalDigits l + (c.toNat - 48) := by
  unfold evalDigits
  rw [List.foldl_append]
  rfl

theorem evalDigits_natRepr (n : Nat) : evalDigits (natRepr n).data = n := by
  induction n using Nat.strong_induction_on with
  | _ n ih =>
    show evalDigits (natReprCore (n + 1) n []) = n
    by_cases h10 : n < 10
    · unfold natReprCore
      simp only [if_pos h10]
      show 10 * 0 + ((digitChar n).toNat - 48) = n
      rw [digitChar_toNat h10]
      omega
    · have hd : n / 10 < n := Nat.div_lt_self (by omega) (by norm_num)
      have step : natReprCore (n + 1) n [] =
          (natRepr (n / 10)).data ++ [digitChar (n % 10)] := by
        show natReprCore (n + 1) n [] = natReprCore (n / 10 + 1) (n / 10) [] ++ [digitChar (n % 10)]
        conv_lhs => unfold natReprCore
        simp only [if_neg h10]
        rw [natReprCore_append n (n / 10) _ (by omega),
          natReprCore_fuel n (n / 10 + 1) (n / 10) [] (by omega) (by omega)]
      rw [step, evalDigits_append_digit, ih (n / 10) hd,
        digitChar_toNat (Nat.mod_lt _ (by norm_num))]
      omega

theorem natRepr_inj {m n : Nat} (h : natRepr m = natRepr n) : m = n := by
  have := congrArg (fun s => evalDigits s.data) h
  simpa [evalDigits_natRepr] using this

theorem natRepr_digits (n : Nat) : ∀ c ∈ (natRepr n).data, c.isDigit = true :=
  natReprCore_digits (n + 1) n [] (by simp)

/-! ### Script names: shape and uniqueness -/

/-- Splitting a digit string from the rest at the first `_` is unambiguous. -/
theorem digits_sep_inj :
    ∀ (d₁ d₂ t₁ t₂ : List Char), (∀ c ∈ d₁, c.isDigit = true) →
      (∀ c ∈ d₂, c.isDigit = true) →
      d₁ ++ '_' :: t₁ = d₂ ++ '_' :: t₂ → d₁ = d₂ ∧ t₁ = t₂ := by
  intro d₁
  induction d₁ with
  | nil =>
    intro d₂ t₁ t₂ _ hd₂ h
    cases d₂ with
    | nil => simpa using h
    | cons c d₂' =>
      exfalso
      simp only [List.nil_append, List.cons_append, List.cons.injEq] at h
      have : c.isDigit = true := hd₂ c (by simp)
      rw [← h.1] at this
      simp [Char.isDigit] at this
  | cons c d₁' ih =>
    intro d₂ t₁ t₂ hd₁ hd₂ h
    cases d₂ with
    | nil =>
      exfalso
      simp only [List.nil_append, List.cons_append, List.cons.injEq] at h
      have : c.isDigit = true := hd₁ c (by simp)
      rw [h.1] at this
      simp [Char.isDigit] at this
    | cons c₂ d₂' =>
      simp only [List.cons_append, List.cons.injEq] at h
      obtain ⟨rfl, h⟩ := h
      obtain ⟨rfl, rfl⟩ := ih d₂' t₁ t₂ (fun x hx => hd₁ x (by simp [hx]))
        (fun x hx => hd₂ x (by simp [hx])) h
      exact ⟨rfl, rfl⟩

theorem script_name_inj {i j : Nat} {t u : String}
    (h : script_name i t = script_name j u) : i = j ∧ t = u := by
  have hdata : "script_".data ++ ((natRepr i).data ++ '_' :: t.data) =
      "script_".data ++ ((natRepr j).data ++ '_' :: u.data) := by
    have := congrArg String.data h
    simpa [script_name, List.append_assoc] using this
  have h2 := List.append_cancel_left hdata
  obtain ⟨hij, htu⟩ := digits_sep_inj _ _ _ _ (natRepr_digits i) (natRepr_digits j) h2
  refine ⟨natRepr_inj ?_, ?_⟩
  · cases hn : natRepr i
    cases hm : natRepr j
    simp_all
  · cases t
    cases u
    simp_all

/-! ### Characterisation of the extraction loop -/

theorem extractGo_eq (ms : List (String × String)) :
    ∀ i, extractGo i ms =
      (((List.enumFrom i ms).filter (isClass .normal)).map scriptEntry,
       ((List.enumFrom i ms).filter (isClass .cleanup)).map scriptEntry) := by
  induction ms with
  | nil => intro i; simp [extractGo]
  | cons hd tl ih =>
    intro i
    obtain ⟨language, content⟩ := hd
    simp only [extractGo, List.enumFrom_cons, List.filter_cons, ih]
    by_cases h1 : pyLower language ∈ nonExecutable
    · simp [isClass, classify, h1]
    · by_cases h2 : is_runner_script content = true
      · simp [isClass, classify, h1, h2]
      · by_cases h3 : is_cleanup_script content = true
        · simp [isClass, classify, h1, h2, h3, scriptEntry]
        · simp [isClass, classify, h1, h2, h3, scriptEntry]

/-- The ScriptSet is the normal entries in appearance order followed by the
cleanup entries in appearance order. -/
theorem extract_eq_normal_append_cleanup (ms : List (String × String)) :
    extract_scripts_from_response ms =
      ((List.enumFrom 1 ms).filter (isClass .normal)).map scriptEntry ++
        ((List.enumFrom 1 ms).filter (isClass .cleanup)).map scriptEntry := by
  unfold extract_scripts_from_response
  rw [extractGo_eq]

/-- Every ScriptSet entry originates from an enumerated block that was
classified `normal` or `cleanup`. -/
theorem mem_extract_cases {ms : List (String × String)} {entry : String × ScriptData}
    (h : entry ∈ extract_scripts_from_response ms) :
    ∃ x ∈ List.enumFrom 1 ms,
      (classify x.2.1 x.2.2 = .normal ∨ classify x.2.1 x.2.2 = .cleanup) ∧
        entry = scriptEntry x := by
  rw [extract_eq_normal_append_cleanup] at h
  rcases List.mem_append.mp h with h' | h' <;>
    obtain ⟨x, hx, rfl⟩ := List.mem_map.mp h' <;>
    obtain ⟨hxm, hxc⟩ := List.mem_filter.mp hx
  · exact ⟨x, hxm, Or.inl (by simpa [isClass] using hxc), rfl⟩
  · exact ⟨x, hxm, Or.inr (by simpa [isClass] using hxc), rfl⟩

/-- Within one enumeration, the ordinal determines the block. -/
theorem enumFrom_fst_inj {ms : List (String × String)} {i : Nat}
    {x y : Nat × String × String} (hx : x ∈ List.enumFrom i ms)
    (hy : y ∈ List.enumFrom i ms) (h : x.1 = y.1) : x = y := by
  have hnodup : ((List.enumFrom i ms).map Prod.fst).Nodup := by
    rw [List.enumFrom_map_fst]
    exact List.nodup_range' _ _
  exact List.inj_on_of_nodup_map hnodup hx hy h

/-- No two entries of one ScriptSet share a name. -/
theorem extract_keys_nodup (ms : List (String × String)) :
    ((extract_scripts_from_response ms).map Prod.fst).Nodup := by
  rw [extract_eq_normal_append_cleanup, List.map_append, List.map_map, List.map_map]
  set enum := List.enumFrom 1 ms with henum
  set key : Nat × String × String → String := Prod.fst ∘ scriptEntry with hkey
  have henodup : enum.Nodup := by
    have : (enum.map Prod.fst).Nodup := by
      rw [henum, List.enumFrom_map_fst]
      exact List.nodup_range' _ _
    exact this.of_map _
  have hinj : ∀ x ∈ enum, ∀ y ∈ enum, key x = key y → x = y := by
    intro x hx y hy hk
    have : x.1 = y.1 := (script_name_inj hk).1
    exact enumFrom_fst_inj hx hy this
  have hmemA : ∀ x ∈ enum.filter (isClass .normal), x ∈ enum :=
    fun x hx => (List.mem_filter.mp hx).1
  have hmemB : ∀ x ∈ enum.filter (isClass .cleanup), x ∈ enum :=
    fun x hx => (List.mem_filter.mp hx).1
  refine List.Nodup.append ?_ ?_ ?_
  · exact (henodup.filter _).map_on
      (fun x hx y hy h => hinj x (hmemA x hx) y (hmemA y hy) h)
  · exact (henodup.filter _).map_on
      (fun x hx y hy h => hinj x (hmemB x hx) y (hmemB y hy) h)
  · intro a ha hb
    obtain ⟨x, hx, rfl⟩ := List.mem_map.mp ha
    obtain ⟨y, hy, hxy⟩ := List.mem_map.mp hb
    have hx' := List.mem_filter.mp hx
    have hy' := List.mem_filter.mp hy
    have : y = x := hinj y (hy'.1) x (hx'.1) hxy
    subst this
    have h1 : classify y.2.1 y.2.2 = ScriptClass.normal := by
      simpa [isClass] using hx'.2
    have h2 : classify y.2.1 y.2.2 = ScriptClass.cleanup := by
      simpa [isClass] using hy'.2
    rw [h1] at h2
    exact ScriptClass.noConfusion h2

/-! ### Classification heuristics vs. their stated conditions -/

theorem is_runner_iff (content : String) :
    is_runner_script content = true ↔ runner_condition content := by
  unfold is_runner_script runner_condition
  by_cases h : (actual_lines content).length ≤ 2
  · simp only [if_pos h, List.any_eq_true, Bool.or_eq_true, Bool.and_eq_true]
    exact ⟨fun ⟨l, hl, hc⟩ => ⟨h, l, hl, hc⟩, fun ⟨_, l, hl, hc⟩ => ⟨l, hl, hc⟩⟩
  · simp [if_neg h, h]

theorem classify_runner_iff {language content : String}
    (h : pyLower language ∉ nonExecutable) :
    classify language content = .rejectedRunner ↔ runner_condition content := by
  unfold classify
  rw [if_neg h]
  constructor
  · intro hc
    by_cases h2 : is_runner_script content = true
    · exact (is_runner_iff content).mp h2
    · rw [if_neg h2] at hc
      split at hc <;> exact absurd hc (by simp)
  · intro hrc
    rw [if_pos ((is_runner_iff content).mpr hrc)]

theorem strIn_intro {pat s : String} (i : Nat) (hi : i < s.data.length + 1)
    (h : pat.data.isPrefixOf (s.data.drop i) = true) : strIn pat s = true := by
  unfold strIn
  rw [List.any_eq_true]
  exact ⟨i, List.mem_range.mpr hi, h⟩

/-- Any content of the form `# cleanup\nrm -rf /tmp/x…` with an `echo`
somewhere in it satisfies the cleanup detector: the `cleanup` indicator sits
at offset 2, well inside the 200-character window, and co-occurs with the
`echo`. -/
theorem is_cleanup_of_cleanup_header {rest : String}
    (hecho : strIn "echo" (pyLower ("# cleanup\nrm -rf /tmp/x" ++ rest)) = true) :
    is_cleanup_script ("# cleanup\nrm -rf /tmp/x" ++ rest) = true := by
  have hdata : (pyLower ("# cleanup\nrm -rf /tmp/x" ++ rest)).data =
      "# cleanup\nrm -rf /tmp/x".data ++ (pyLower rest).data := by
    show ("# cleanup\nrm -rf /tmp/x" ++ rest).data.map Char.toLower = _
    rw [String.data_append, List.map_append]
    congr 1
  have hlen : ("# cleanup\nrm -rf /tmp/x".data).length = 23 := by decide
  have hfull : strIn "cleanup" (pyLower ("# cleanup\nrm -rf /tmp/x" ++ rest)) = true := by
    apply strIn_intro 2
    · rw [hdata, List.length_append]
      omega
    · rw [hdata, List.drop_append_of_le_length (by omega), List.isPrefixOf_iff_prefix]
      exact (show "cleanup".data <+: "# cleanup\nrm -rf /tmp/x".data.drop 2 by decide).trans
        (List.prefix_append _ _)
  have h200 : strIn "cleanup"
      (pyTake 200 (pyLower ("# cleanup\nrm -rf /tmp/x" ++ rest))) = true := by
    apply strIn_intro 2
    · show 2 < ((pyLower ("# cleanup\nrm -rf /tmp/x" ++ rest)).data.take 200).length + 1
      rw [List.length_take, hdata, List.length_append]
      omega
    · show ("cleanup".data.isPrefixOf
        (((pyLower ("# cleanup\nrm -rf /tmp/x" ++ rest)).data.take 200).drop 2)) = true
      rw [hdata, List.take_append_eq_append_take,
        List.take_of_length_le (by omega),
        List.drop_append_of_le_length (by omega), List.isPrefixOf_iff_prefix]
      exact (show "cleanup".data <+: "# cleanup\nrm -rf /tmp/x".data.drop 2 by decide).trans
        (List.prefix_append _ _)
  simp only [is_cleanup_script, List.any_eq_true]
  refine ⟨"cleanup", by decide, ?_⟩
  simp [h200, hfull, hecho]

/-- A `# cleanup\nrm -rf /tmp/x…` body with an `echo`, not caught by the two
earlier rejection checks, is classified cleanup. -/
theorem cleanup_family_classify {language rest : String}
    (hdeny : pyLower language ∉ nonExecutable)
    (hrun : is_runner_script ("# cleanup\nrm -rf /tmp/x" ++ rest) = false)
    (hecho : strIn "echo" (pyLower ("# cleanup\nrm -rf /tmp/x" ++ rest)) = true) :
    classify language ("# cleanup\nrm -rf /tmp/x" ++ rest) = .cleanup := by
  unfold classify
  rw [if_neg hdeny, if_neg (by simp [hrun]),
    if_pos (is_cleanup_of_cleanup_header hecho)]

theorem is_cleanup_implies {content : String} (h : is_cleanup_script content = true) :
    cleanup_condition content := by
  simp only [is_cleanup_script, List.any_eq_true, Bool.and_eq_true, Bool.or_eq_true] at h
  obtain ⟨ind, hmem, h200, hco⟩ := h
  refine ⟨ind, hmem, h200, ?_⟩
  rcases hco with ⟨hecho, _⟩ | (h1 | h2)
  · exact Or.inl hecho
  · exact Or.inr (Or.inl h1)
  · exact Or.inr (Or.inr h2)

/-! ### Executor sequencing -/

theorem emsGo_stop_spec (execF : Nat → ScriptData → Bool × String × String) :
    ∀ (pre : List (String × ScriptData)) (start : Nat) (x : String × ScriptData)
      (post : List (String × ScriptData)),
      (∀ y ∈ List.enumFrom start pre, (execF y.1 y.2.2).1 = true) →
      (execF (start + pre.length) x.2).1 = false →
      emsGo execF true start (pre ++ x :: post) =
        (List.enumFrom start (pre ++ [x])).map fun y => (y.2.1, execF y.1 y.2.2) := by
  intro pre
  induction pre with
  | nil =>
    intro start x post _ hfail
    obtain ⟨nm, info⟩ := x
    simp only [List.length_nil, Nat.add_zero] at hfail
    show emsGo execF true start ((nm, info) :: post) = _
    unfold emsGo
    simp [hfail]
  | cons p pre' ih =>
    intro start x post hpre hfail
    obtain ⟨nm, info⟩ := p
    have hp : (execF start info).1 = true := by
      simpa using hpre (start, (nm, info)) (by simp)
    show emsGo execF true start ((nm, info) :: (pre' ++ x :: post)) = _
    unfold emsGo
    simp only [hp, Bool.not_true, Bool.false_and, if_neg (by simp : ¬(false = true))]
    rw [ih (start + 1) x post
      (fun y hy => hpre y (by simp [List.enumFrom_cons, hy]))
      (by simpa [Nat.add_comm, Nat.add_left_comm, Nat.add_assoc] using hfail)]
    simp [List.enumFrom_cons, hp]

/-! ### Orchestrator aggregation -/

theorem recordOutcome_executed (r : TestResult) (x : String × (Bool × String × String)) :
    (recordOutcome r x).scripts_executed = r.scripts_executed := by
  dsimp only [recordOutcome]
  by_cases h : x.2.1 <;> simp [h]

theorem recordOutcome_counts (r : TestResult) (x : String × (Bool × String × String)) :
    (recordOutcome r x).scripts_passed + (recordOutcome r x).scripts_failed =
      r.scripts_passed + r.scripts_failed + 1 := by
  dsimp only [recordOutcome]
  by_cases h : x.2.1 <;> simp [h] <;> omega

theorem recordOutcome_details (r : TestResult) (x : String × (Bool × String × String)) :
    (recordOutcome r x).details =
      r.details ++ [⟨x.1, x.2.1, pyTake 1000 x.2.2.1, pyTake 1000 x.2.2.2⟩] := by
  dsimp only [recordOutcome]
  by_cases h : x.2.1 <;> simp [h]

theorem foldl_recordOutcome_executed :
    ∀ (l : List (String × (Bool × String × String))) (r : TestResult),
      (l.foldl recordOutcome r).scripts_executed = r.scripts_executed := by
  intro l
  induction l with
  | nil => intro r; rfl
  | cons x l ih => intro r; rw [List.foldl_cons, ih, recordOutcome_executed]

theorem foldl_recordOutcome_counts :
    ∀ (l : List (String × (Bool × String × String))) (r : TestResult),
      (l.foldl recordOutcome r).scripts_passed + (l.foldl recordOutcome r).scripts_failed =
        r.scripts_passed + r.scripts_failed + l.length := by
  intro l
  induction l with
  | nil => intro r; rfl
  | cons x l ih =>
    intro r
    rw [List.foldl_cons, ih, recordOutcome_counts]
    simp [Nat.add_comm, Nat.add_left_comm]

theorem foldl_recordOutcome_details_length :
    ∀ (l : List (String × (Bool × String × String))) (r : TestResult),
      (l.foldl recordOutcome r).details.length = r.details.length + l.length := by
  intro l
  induction l with
  | nil => intro r; rfl
  | cons x l ih =>
    intro r
    rw [List.foldl_cons, ih, recordOutcome_details]
    simp [Nat.add_comm, Nat.add_left_comm]

theorem pyTake_length_le (n : Nat) (s : String) : (pyTake n s).length ≤ n := by
  show (s.data.take n).length ≤ n
  simp [List.length_take_le]

theorem foldl_recordOutcome_details_mem :
    ∀ (l : List (String × (Bool × String × String))) (r : TestResult),
      ∀ d ∈ (l.foldl recordOutcome r).details,
        d ∈ r.details ∨ (d.stdout.length ≤ 1000 ∧ d.stderr.length ≤ 1000) := by
  intro l
  induction l with
  | nil => intro r d hd; exact Or.inl hd
  | cons x l ih =>
    intro r d hd
    rcases ih (recordOutcome r x) d hd with h | h
    · rw [recordOutcome_details] at h
      rcases List.mem_append.mp h with h | h
      · exact Or.inl h
      · refine Or.inr ?_
        simp only [List.mem_singleton] at h
        subst h
        exact ⟨pyTake_length_le _ _, pyTake_length_le _ _⟩
    · exact Or.inr h

theorem aggregate_executed (base : TestResult)
    (l : List (String × (Bool × String × String))) :
    (aggregate base l).scripts_executed = l.length := by
  dsimp only [aggregate]
  rw [foldl_recordOutcome_executed]

theorem aggregate_counts (base : TestResult)
    (l : List (String × (Bool × String × String))) :
    (aggregate base l).scripts_passed + (aggregate base l).scripts_failed =
      base.scripts_passed + base.scripts_failed + l.length := by
  dsimp only [aggregate]
  rw [foldl_recordOutcome_counts]

theorem aggregate_details_length (base : TestResult)
    (l : List (String × (Bool × String × String))) :
    (aggregate base l).details.length = base.details.length + l.length := by
  dsimp only [aggregate]
  rw [foldl_recordOutcome_details_length]

theorem aggregate_details_mem (base : TestResult)
    (l : List (String × (Bool × String × String))) :
    ∀ d ∈ (aggregate base l).details,
      d ∈ base.details ∨ (d.stdout.length ≤ 1000 ∧ d.stderr.length ≤ 1000) := by
  dsimp only [aggregate]
  exact foldl_recordOutcome_details_mem l _

theorem aggregate_success_iff (base : TestResult)
    (l : List (String × (Bool × String × String))) :
    (aggregate base l).success = true ↔
      0 < (aggregate base l).scripts_executed ∧
        (aggregate base l).scripts_failed = 0 := by
  dsimp only [aggregate]
  simp

/-- On the all-stages-succeed path, `test_documentation` is the aggregation
of the execution outcomes over the populated base record. -/
theorem test_documentation_ok_eq (sources : List String)
    (docs : List (String × String)) (s0 : String × ScriptData)
    (srest : List (String × ScriptData))
    (l : List (String × (Bool × String × String))) :
    test_documentation sources (.ok docs) (.ok (s0 :: srest)) (.ok l) =
      aggregate
        { success := false, documentation_sources := sources,
          documentation_count := docs.length,
          scripts_generated := (s0 :: srest).length, scripts_executed := 0,
          scripts_passed := 0, scripts_failed := 0, scripts := s0 :: srest,
          details := [], error := none } l := rfl

/-- A block whose classification is one of the two rejections contributes no
entry to the ScriptSet: not even its own name appears. -/
theorem not_mem_extract_of_rejected {ms : List (String × String)} {i : Nat}
    {language content : String} {d : ScriptData}
    (hmem : (i, (language, content)) ∈ List.enumFrom 1 ms)
    (hcls : classify language content = .rejectedNonExecutable ∨
      classify language content = .rejectedRunner) :
    (script_name i (normType language), d) ∉ extract_scripts_from_response ms := by
  intro habs
  obtain ⟨x, hx, hxcls, hentry⟩ := mem_extract_cases habs
  have hname : script_name i (normType language) = script_name x.1 (normType x.2.1) := by
    have := congrArg Prod.fst hentry
    simpa [scriptEntry, mkEntry] using this
  have heq : (i, (language, content)) = x :=
    enumFrom_fst_inj hmem hx (by simpa using (script_name_inj hname).1)
  rw [← heq] at hxcls
  simp only at hxcls
  rcases hcls with h | h <;> rcases hxcls with h' | h' <;> rw [h] at h' <;>
    exact ScriptClass.noConfusion h'

/-! ### The claims -/

/-- C1: For every model response, the ScriptSet built by the parser lists all
candidates classified normal in their original order of appearance, followed
by all candidates classified cleanup in their original relative order; in
particular, for candidates with ordinals [1: normal, 2: cleanup, 3: normal]
the built order is [1, 3, 2]. -/
theorem claim_C1_scriptset_order :
    (∀ ms : List (String × String),
      extract_scripts_from_response ms =
        ((List.enumFrom 1 ms).filter (isClass .normal)).map scriptEntry ++
          ((List.enumFrom 1 ms).filter (isClass .cleanup)).map scriptEntry) ∧
    extract_scripts_from_response
        [("bash", "echo hi"), ("bash", "# cleanup\nrm -rf /tmp/x\necho \"done\""),
         ("bash", "echo bye")] =
      [("script_1_bash", ⟨"echo hi", "bash"⟩), ("script_3_bash", ⟨"echo bye", "bash"⟩),
       ("script_2_bash", ⟨"# cleanup\nrm -rf /tmp/x\necho \"done\"", "bash"⟩)] :=
  ⟨extract_eq_normal_append_cleanup, by decide⟩

/-- C2: Every fenced block whose declared language token, lower-cased, is in
the non-executable denylist is classified rejected-non-executable regardless
of its content, and it never appears in the resulting ScriptSet. -/
theorem claim_C2_nonexecutable_denylist :
    (∀ language content : String, pyLower language ∈ nonExecutable →
      classify language content = .rejectedNonExecutable) ∧
    (∀ (ms : List (String × String)) (i : Nat) (language content : String)
      (d : ScriptData), (i, (language, content)) ∈ List.enumFrom 1 ms →
        pyLower language ∈ nonExecutable →
        (script_name i (normType language), d) ∉ extract_scripts_from_response ms) := by
  have hcls : ∀ language content : String, pyLower language ∈ nonExecutable →
      classify language content = .rejectedNonExecutable := by
    intro language content h
    unfold classify
    rw [if_pos h]
  exact ⟨hcls, fun ms i language content d hmem hdeny =>
    not_mem_extract_of_rejected hmem (Or.inl (hcls language content hdeny))⟩

/-- C2 witness: a `json` block with body `{}` is rejected and its name is
absent from the ScriptSet built from a response containing only it. -/
theorem claim_C2_nonexecutable_denylist_witness :
    classify "json" "x" = ScriptClass.rejectedNonExecutable ∧
    (script_name 1 (normType "json"), (⟨"x", "json"⟩ : ScriptData)) ∉
      extract_scripts_from_response [("json", "x")] :=
  ⟨claim_C2_nonexecutable_denylist.1 "json" "x" (by decide),
   claim_C2_nonexecutable_denylist.2 [("json", "x")] 1 "json" "x" ⟨"x", "json"⟩
     (by decide) (by decide)⟩

/-- C3: A candidate whose language survives the denylist is classified
rejected-runner exactly when its content, after removing blank lines and
lines starting with `#`, has at most two remaining lines of which at least
one contains both `chmod` and `.sh` or starts with `./` and contains `.sh`;
in particular `"chmod +x run.sh\n./run.sh"` is classified rejected-runner,
and a rejected-runner block never appears in the ScriptSet. -/
theorem claim_C3_runner_rejection :
    (∀ language content : String, pyLower language ∉ nonExecutable →
      (classify language content = .rejectedRunner ↔ runner_condition content)) ∧
    classify "bash" "chmod +x run.sh\n./run.sh" = .rejectedRunner ∧
    (∀ (ms : List (String × String)) (i : Nat) (language content : String)
      (d : ScriptData), (i, (language, content)) ∈ List.enumFrom 1 ms →
        is_runner_script content = true →
        (script_name i (normType language), d) ∉ extract_scripts_from_response ms) := by
  refine ⟨fun _ _ h => classify_runner_iff h, by decide, ?_⟩
  intro ms i language content d hmem hrun
  refine not_mem_extract_of_rejected hmem ?_
  unfold classify
  by_cases hdeny : pyLower language ∈ nonExecutable
  · exact Or.inl (by rw [if_pos hdeny])
  · exact Or.inr (by rw [if_neg hdeny, if_pos hrun])

/-- C3 witness: the two-line runner stub is classified rejected-runner, its
stated condition holds of it, and it is absent from the ScriptSet built from
a response containing only it. -/
theorem claim_C3_runner_rejection_witness :
    (classify "bash" "chmod +x run.sh\n./run.sh" = ScriptClass.rejectedRunner ↔
      runner_condition "chmod +x run.sh\n./run.sh") ∧
    (script_name 1 (normType "bash"), (⟨"chmod +x run.sh\n./run.sh", "bash"⟩ : ScriptData)) ∉
      extract_scripts_from_response [("bash", "chmod +x run.sh\n./run.sh")] :=
  ⟨claim_C3_runner_rejection.1 "bash" "chmod +x run.sh\n./run.sh" (by decide),
   claim_C3_runner_rejection.2.2 [("bash", "chmod +x run.sh\n./run.sh")] 1 "bash"
     "chmod +x run.sh\n./run.sh" ⟨"chmod +x run.sh\n./run.sh", "bash"⟩
     (by decide) (by decide)⟩

/-- C4: Any candidate whose content begins with the line `# cleanup`
followed by `rm -rf /tmp/x` and carries an `echo` output — and which the
earlier denylist and runner checks of the first-match-wins cascade do not
already reject — is classified cleanup; the concrete body
`# cleanup\nrm -rf /tmp/x\necho "done"` is so classified and the ScriptSet
places it after every normal entry regardless of its original ordinal;
generally, cleanup classification requires a cleanup indicator phrase within
the first 200 characters (case-insensitively) co-occurring with an output
statement in the content or with a comment introducing that indicator. -/
theorem claim_C4_cleanup_detection :
    (∀ language rest : String, pyLower language ∉ nonExecutable →
      is_runner_script ("# cleanup\nrm -rf /tmp/x" ++ rest) = false →
      strIn "echo" (pyLower ("# cleanup\nrm -rf /tmp/x" ++ rest)) = true →
      classify language ("# cleanup\nrm -rf /tmp/x" ++ rest) = .cleanup) ∧
    (∀ content : String, is_cleanup_script content = true → cleanup_condition content) ∧
    classify "bash" "# cleanup\nrm -rf /tmp/x\necho \"done\"" = .cleanup ∧
    extract_scripts_from_response
        [("bash", "# cleanup\nrm -rf /tmp/x\necho \"done\""), ("bash", "echo hi")] =
      [("script_2_bash", ⟨"echo hi", "bash"⟩),
       ("script_1_bash", ⟨"# cleanup\nrm -rf /tmp/x\necho \"done\"", "bash"⟩)] :=
  ⟨fun _ _ hdeny hrun hecho => cleanup_family_classify hdeny hrun hecho,
   fun _ h => is_cleanup_implies h, by decide, by decide⟩

/-- C4 witness: for the concrete cleanup body, the family statement yields
classification cleanup, and the detector result yields the stated
indicator/co-occurrence condition. -/
theorem claim_C4_cleanup_detection_witness :
    classify "bash" ("# cleanup\nrm -rf /tmp/x" ++ "\necho \"done\"") =
      ScriptClass.cleanup ∧
    cleanup_condition "# cleanup\nrm -rf /tmp/x\necho \"done\"" :=
  ⟨claim_C4_cleanup_detection.1 "bash" "\necho \"done\"" (by decide) (by decide) (by decide),
   claim_C4_cleanup_detection.2.1 _ (by decide)⟩

/-- C5: The returned TestResult's success field is true iff
scripts_executed > 0 and scripts_failed = 0; on any stage failure (fetch,
generation, empty ScriptSet, execution spawn failure) the result carries a
top-level error string and success is false. -/
theorem claim_C5_success_definition :
    ∀ (sources : List String) (fetchR : Except String (List (String × String)))
      (genR : Except String (List (String × ScriptData)))
      (execR : Except String (List (String × (Bool × String × String)))),
      ((test_documentation sources fetchR genR execR).success = true ↔
        0 < (test_documentation sources fetchR genR execR).scripts_executed ∧
          (test_documentation sources fetchR genR execR).scripts_failed = 0) ∧
      (((∃ e, fetchR = .error e) ∨ (∃ e, genR = .error e) ∨ genR = .ok [] ∨
          (∃ e, execR = .error e)) →
        (test_documentation sources fetchR genR execR).error.isSome = true ∧
          (test_documentation sources fetchR genR execR).success = false) := by
  intro sources fetchR genR execR
  rcases fetchR with e | docs
  · exact ⟨by simp [test_documentation], fun _ => by simp [test_documentation]⟩
  · rcases genR with e | scripts
    · exact ⟨by simp [test_documentation], fun _ => by simp [test_documentation]⟩
    · rcases hs : scripts with _ | ⟨s0, srest⟩
      · exact ⟨by simp [test_documentation], fun _ => by simp [test_documentation]⟩
      · rcases execR with e | l
        · exact ⟨by simp [test_documentation], fun _ => by simp [test_documentation]⟩
        · constructor
          · rw [test_documentation_ok_eq]
            exact aggregate_success_iff _ l
          · rintro (⟨e, he⟩ | ⟨e, he⟩ | he | ⟨e, he⟩) <;> simp_all

/-- C5 witness: a failing fetch yields an error, no success, and the success
equivalence holds at that concrete run. -/
theorem claim_C5_success_definition_witness :
    ((test_documentation [] (.error "boom") (.ok []) (.ok [])).success = true ↔
      0 < (test_documentation [] (.error "boom") (.ok []) (.ok [])).scripts_executed ∧
        (test_documentation [] (.error "boom") (.ok []) (.ok [])).scripts_failed = 0) ∧
    (test_documentation [] (.error "boom") (.ok []) (.ok [])).error.isSome = true ∧
    (test_documentation [] (.error "boom") (.ok []) (.ok [])).success = false :=
  ⟨(claim_C5_success_definition [] (.error "boom") (.ok []) (.ok [])).1,
   (claim_C5_success_definition [] (.error "boom") (.ok []) (.ok [])).2
     (Or.inl ⟨"boom", rfl⟩)⟩

/-- C6: With stop_on_failure set, execute_multiple_scripts executes scripts
in ScriptSet order and stops right after the first failing script: every
script up to and including the failing one has an outcome entry, in order,
and no script after it has any. -/
theorem claim_C6_stop_on_failure :
    ∀ (execF : Nat → ScriptData → Bool × String × String)
      (pre : List (String × ScriptData)) (x : String × ScriptData)
      (post : List (String × ScriptData)),
      (∀ y ∈ List.enumFrom 0 pre, (execF y.1 y.2.2).1 = true) →
      (execF pre.length x.2).1 = false →
      execute_multiple_scripts execF (pre ++ x :: post) true =
        (List.enumFrom 0 (pre ++ [x])).map fun y => (y.2.1, execF y.1 y.2.2) := by
  intro execF pre x post hpre hfail
  exact emsGo_stop_spec execF pre 0 x post hpre (by simpa using hfail)

/-- C6 witness: with one passing script, then one failing script, then one
further script, exactly the first two outcomes are recorded. -/
theorem claim_C6_stop_on_failure_witness :
    execute_multiple_scripts (fun _ d => (d.type == "ok", "", ""))
        [("a", ⟨"x", "ok"⟩), ("b", ⟨"y", "bad"⟩), ("c", ⟨"z", "ok"⟩)] true =
      [("a", (true, "", "")), ("b", (false, "", ""))] :=
  (claim_C6_stop_on_failure (fun _ d => (d.type == "ok", "", ""))
    [("a", ⟨"x", "ok"⟩)] ("b", ⟨"y", "bad"⟩) [("c", ⟨"z", "ok"⟩)]
    (by decide) (by decide)).trans (by decide)

/-- C7: On timeout, execute_script returns success = false, empty stdout and
a stderr stating the timeout and its duration; on normal completion the
captured output is passed through and success holds iff the exit status is
zero. -/
theorem claim_C7_timeout_reporting :
    ∀ (t : Nat) (rc : Int) (out err : String),
      execute_script_result .timedOut t =
        (false, "", "Script execution timed out after " ++ natRepr t ++ " seconds") ∧
      execute_script_result (.completed rc out err) t = ((rc == 0 : Bool), out, err) ∧
      ((execute_script_result (.completed rc out err) t).1 = true ↔ rc = 0) := by
  intro t rc out err
  refine ⟨rfl, rfl, ?_⟩
  show (rc == 0) = true ↔ rc = 0
  exact beq_iff_eq

/-- C8 counterexample: for source context `a!b` the generated filename is
`_gen-a_b-abcdef.sh`, not the `_gen-ab-abcdef.sh` that stripping the
non-word characters (as the claim words it) would produce. -/
theorem claim_C8_counterexample :
    generate_script_filename "bash" 0 (some "a!b") "abcdef" ≠
      "_gen-" ++ claimed_sanitize "a!b" ++ "-" ++ "abcdef" ++ script_extension "bash" := by
  decide

/-- C8 (amended): every generated filename is
`_gen-<sanitized-source-or-index>-<random6>.<ext>`, where sanitization
replaces each character outside word characters, hyphen, and dot with an
underscore, removes leading and trailing underscores, and truncates to the
last 50 characters. -/
theorem claim_C8_filename_pattern :
    ∀ (script_type : String) (script_index : Nat) (src random_suffix : String),
      generate_script_filename script_type script_index (some src) random_suffix =
        "_gen-" ++ amended_sanitize src ++ "-" ++ random_suffix ++
          script_extension script_type ∧
      generate_script_filename script_type script_index none random_suffix =
        "_gen-script" ++ natRepr script_index ++ "-" ++ random_suffix ++
          script_extension script_type :=
  fun _ _ _ _ => ⟨rfl, rfl⟩

/-- C9: Every ScriptSet entry is named `script_<ordinal>_<normalizedType>`
for the block it came from, with ordinals numbered from 1 per matched block
whether or not the block is rejected, and no two entries of one ScriptSet
share a name. -/
theorem claim_C9_unique_names :
    ∀ ms : List (String × String),
      ((extract_scripts_from_response ms).map Prod.fst).Nodup ∧
      ∀ entry ∈ extract_scripts_from_response ms,
        ∃ x ∈ List.enumFrom 1 ms, entry.1 = script_name x.1 (normType x.2.1) := by
  intro ms
  refine ⟨extract_keys_nodup ms, ?_⟩
  intro entry hentry
  obtain ⟨x, hx, _, rfl⟩ := mem_extract_cases hentry
  exact ⟨x, hx, rfl⟩

/-- C9 witness: with a rejected `yaml` block in front, the surviving block
keeps its ordinal-2 name, names are distinct, and the entry's name has the
stated shape. -/
theorem claim_C9_unique_names_witness :
    ((extract_scripts_from_response [("yaml", "a"), ("bash", "echo hi")]).map
      Prod.fst).Nodup ∧
    ∃ x ∈ List.enumFrom 1 [("yaml", "a"), ("bash", "echo hi")],
      ("script_2_bash", (⟨"echo hi", "bash"⟩ : ScriptData)).1 =
        script_name x.1 (normType x.2.1) :=
  ⟨(claim_C9_unique_names [("yaml", "a"), ("bash", "echo hi")]).1,
   (claim_C9_unique_names [("yaml", "a"), ("bash", "echo hi")]).2
     ("script_2_bash", ⟨"echo hi", "bash"⟩) (by decide)⟩

/-- C10: In every TestResult, scripts_passed + scripts_failed equals
scripts_executed, scripts_executed equals the length of details, and every
detail's stdout and stderr are at most 1000 characters long. -/
theorem claim_C10_result_invariants :
    ∀ (sources : List String) (fetchR : Except String (List (String × String)))
      (genR : Except String (List (String × ScriptData)))
      (execR : Except String (List (String × (Bool × String × String)))),
      (test_documentation sources fetchR genR execR).scripts_passed +
          (test_documentation sources fetchR genR execR).scripts_failed =
        (test_documentation sources fetchR genR execR).scripts_executed ∧
      (test_documentation sources fetchR genR execR).scripts_executed =
        (test_documentation sources fetchR genR execR).details.length ∧
      ∀ d ∈ (test_documentation sources fetchR genR execR).details,
        d.stdout.length ≤ 1000 ∧ d.stderr.length ≤ 1000 := by
  intro sources fetchR genR execR
  rcases fetchR with e | docs
  · exact ⟨rfl, rfl, by simp [test_documentation]⟩
  · rcases genR with e | scripts
    · exact ⟨rfl, rfl, by simp [test_documentation]⟩
    · rcases hs : scripts with _ | ⟨s0, srest⟩
      · exact ⟨rfl, rfl, by simp [test_documentation]⟩
      · rcases execR with e | l
        · exact ⟨rfl, rfl, by simp [test_documentation]⟩
        · rw [test_documentation_ok_eq]
          refine ⟨?_, ?_, ?_⟩
          · rw [aggregate_counts, aggregate_executed]
            simp
          · rw [aggregate_executed, aggregate_details_length]
            simp
          · intro d hd
            rcases aggregate_details_mem _ l d hd with h | h
            · simp at h
            · exact h

/-- C10 witness: a run with one passing script satisfies the invariants, at
its concrete detail entry. -/
theorem claim_C10_result_invariants_witness :
    (test_documentation ["s"] (.ok [("s", "doc")]) (.ok [("n", ⟨"c", "bash"⟩)])
          (.ok [("n", (true, "o", "e"))])).scripts_passed +
        (test_documentation ["s"] (.ok [("s", "doc")]) (.ok [("n", ⟨"c", "bash"⟩)])
          (.ok [("n", (true, "o", "e"))])).scripts_failed =
      (test_documentation ["s"] (.ok [("s", "doc")]) (.ok [("n", ⟨"c", "bash"⟩)])
        (.ok [("n", (true, "o", "e"))])).scripts_executed ∧
    (⟨"n", true, "o", "e"⟩ : Detail).stdout.length ≤ 1000 ∧
      (⟨"n", true, "o", "e"⟩ : Detail).stderr.length ≤ 1000 :=
  ⟨(claim_C10_result_invariants ["s"] (.ok [("s", "doc")])
      (.ok [("n", ⟨"c", "bash"⟩)]) (.ok [("n", (true, "o", "e"))])).1,
   (claim_C10_result_invariants ["s"] (.ok [("s", "doc")])
      (.ok [("n", ⟨"c", "bash"⟩)]) (.ok [("n", (true, "o", "e"))])).2.2
     ⟨"n", true, "o", "e"⟩ (by decide)⟩

end Doctai
